import Mathlib

/-!
Verification development for `astroid/modutils.py` (module resolution
utilities).  The Python source is shallowly embedded: paths are modelled as
lists of components (the code runs on a POSIX system with absolute,
already-normalized paths, so `os.path.normcase`, `os.path.abspath`,
`os.path.realpath` and `os.path.expanduser` are the identity and string
concatenation with `os.sep` corresponds to list append), the filesystem is a
finite explicit structure, and every fallible operation returns `Except`.
The Python-version-dependent constants are fixed to CPython 3 on POSIX
(`PY_SOURCE_EXTS = ('py',)`, `PY_COMPILED_EXTS = ('so',)`, `IS_JYTHON =
False`, `_HAS_MACHINERY = True`, `sys.version_info > (3, 3)`).
-/

namespace Modutils

/-- A filesystem path, as its list of components (absolute, no empty
components; the leading `/` of the rendered string is implicit). -/
abbrev Path := List String

/-- `ModuleType` enum from the source (`enum.Enum('ModuleType', ...)`). -/
inductive ModType where
  | C_BUILTIN
  | C_EXTENSION
  | PKG_DIRECTORY
  | PY_CODERESOURCE
  | PY_COMPILED
  | PY_FROZEN
  | PY_RESOURCE
  | PY_SOURCE
  | PY_ZIPMODULE
  | PY_NAMESPACE
deriving DecidableEq, Repr

/-- The `submodule_search_locations` field of a `ModuleSpec`.  In the Python
source this field is untyped: `ImpFinder` leaves it `None`, `_find_spec`
stores a list of directories (or `None`), `ZipFinder` stores the archive
path itself (a single string), and `PEP420SpecFinder` stores a list. -/
inductive SubLocs where
  | noLocs
  | paths (l : List Path)
  | zipPath (p : Path)
deriving DecidableEq, Repr

/-- `ModuleSpec` namedtuple.  `type` is an `Option` because
`PEP420SpecFinder` stores Python `None` in it for non-namespace results;
`origin` holds the literal strings the source stores ("egg", "namespace", or
a rendered file path). -/
structure ModuleSpec where
  name : String
  type : Option ModType
  location : Option Path := none
  origin : Option String := none
  submodule_search_locations : SubLocs := SubLocs.noLocs
deriving DecidableEq, Repr

/-- Exceptions raised by the embedded code.  `attributeError` records which
attribute was missing, which matters because two statements of
`_spec_from_modpath` access attributes that do not exist
(`ModuleSpec.PY_SOURCE` and `spec.replace`). -/
inductive Err where
  | importError
  | noSourceFile
  | attributeError (attr : String)
  | keyError
  | assertionError
  | unboundLocal
  | typeError
deriving DecidableEq, Repr

/-- A zipimporter handle: the archive path and the member module names it
can find (`zipimport.zipimporter(...).find_module`, with members given as
component lists since the source queries both `modpath[0]` and
`os.path.sep.join(modpath)`). -/
structure ZipImp where
  archive : Path
  members : List (List String)
deriving DecidableEq, Repr

/-- The process-wide `sys.path_importer_cache` as the source manipulates it:
an insertion-ordered mapping from path to importer.  (The real interpreter
also stores other finder kinds there; the code under verification only ever
stores zipimporters, and `_search_zip` guards with `importer is not None`,
so entries are modelled as `Option ZipImp`.) -/
abbrev Pic := List (Path × Option ZipImp)

/-- The static filesystem: which paths are existing files, which are
existing directories, which package-init files contain the setuptools
namespace marker bytes (`pkgutil`/`extend_path` or
`pkg_resources`/`declare_namespace`) within their first 4096 bytes, and
which paths are readable zip archives together with the member names their
zipimporter can find. -/
structure FS where
  files : List Path := []
  dirs : List Path := []
  magicInits : List Path := []
  zips : List (Path × List (List String)) := []
deriving DecidableEq, Repr

/-- The process environment the module-level globals of the source are read
from: `sys.path`, `sys.builtin_module_names`, frozen modules, the
`pkg_resources._namespace_packages` keys, `EXT_LIB_DIR`, `STD_LIB_DIRS` and
`os.path.__file__` (used by the hard-coded `['os', 'path']` shortcut). -/
structure Env where
  fs : FS
  sysPath : List Path := []
  builtins : List String := []
  frozen : List String := []
  nsPkgs : List String := []
  extLibDir : Path := []
  stdLibDirs : List Path := []
  osPathFile : Path := []
deriving DecidableEq, Repr

/-! ### `os.path` primitives over the path model -/

/-- `os.path.isfile`. -/
def isfile (fs : FS) (p : Path) : Bool := fs.files.contains p

/-- `os.path.isdir`. -/
def isdir (fs : FS) (p : Path) : Bool := fs.dirs.contains p

/-- `os.path.exists`. -/
def pathExists (fs : FS) (p : Path) : Bool := isfile fs p || isdir fs p

/-- `os.path.join(p, name)` for a single extra component. -/
def pathJoin (p : Path) (name : String) : Path := p ++ [name]

/-- `os.path.dirname`. -/
def dirname (p : Path) : Path := p.dropLast

/-- `os.path.normcase` (identity on POSIX). -/
def normcase (p : Path) : Path := p

/-- `os.path.abspath` (identity: all modelled paths are absolute). -/
def abspath (p : Path) : Path := p

/-- `_normalize_path`: `os.path.normcase(os.path.abspath(path))`. -/
def normalizePath (p : Path) : Path := normcase (abspath p)

/-- `_canonicalize_path`: `os.path.realpath(os.path.expanduser(path))`;
identity in the model (no symlinks, no `~`). -/
def canonicalizePath (p : Path) : Path := p

/-- `_cache_normalize_path`: memoized `_normalize_path`.  The cache
`_NORM_PATH_CACHE` is only ever written with `_normalize_path(path)` by the
function itself, so it computes the same pure function (the `''` entry is
never cached, which also does not change the computed value). -/
def cacheNormalizePath (p : Path) : Path := normalizePath p

/-- Split a single path component at its last `.`; the extension keeps the
dot.  Recursion prefers a split found in the tail, so the split is at the
last dot. -/
def lastDotSplit : List Char → Option (List Char × List Char)
  | [] => none
  | c :: rest =>
    match lastDotSplit rest with
    | some (pre, ext) => some (c :: pre, ext)
    | none => if c = '.' then some ([], c :: rest) else none

/-- `os.path.splitext` on one component (CPython `genericpath._splitext`
restricted to a separator-free string): split at the last dot unless every
character before it is itself a dot (so `.bashrc` and `..py` do not
split). -/
def splitextList (cs : List Char) : List Char × List Char :=
  match lastDotSplit cs with
  | some (pre, ext) => if pre.any (· ≠ '.') then (pre, ext) else (cs, [])
  | none => (cs, [])

/-- `os.path.splitext` on one component, string version. -/
def splitext1 (s : String) : String × String :=
  let r := splitextList s.data
  (⟨r.1⟩, ⟨r.2⟩)

/-- The extension-stripped form of a path (`os.path.splitext(p)[0]`): only
the last component is affected. -/
def pathSplitextBase (p : Path) : Path :=
  match p with
  | [] => []
  | _ => p.dropLast ++ [(splitext1 (p.getLastD "")).1]

/-- The extension of a path (`os.path.splitext(p)[1]`, dot included). -/
def pathSplitextExt (p : Path) : String :=
  (splitext1 (p.getLastD "")).2

/-- Append a suffix string to the last component of a nonempty path (the
source builds such paths with `'%s.%s' % (base, ext)` or string `+`). -/
def pathAddSuffix (p : Path) (suffix : String) : Path :=
  match p with
  | [] => [suffix]
  | _ => p.dropLast ++ [p.getLastD "" ++ suffix]

/-- Render a path as the string the interpreter would report (used only
where the source stores a path into a string-typed slot, e.g.
`spec.origin`). -/
def pathStr (p : Path) : String := "/" ++ String.intercalate "/" p

/-! ### Version-dependent constants (CPython 3 on POSIX) -/

/-- `PY_SOURCE_EXTS` on POSIX. -/
def PY_SOURCE_EXTS : List String := ["py"]

/-- `PY_COMPILED_EXTS` on POSIX. -/
def PY_COMPILED_EXTS : List String := ["so"]

/-- `importlib.machinery.EXTENSION_SUFFIXES`, reduced to the plain
platform suffix. -/
def EXTENSION_SUFFIXES : List String := [".so"]

/-- `importlib.machinery.SOURCE_SUFFIXES`. -/
def SOURCE_SUFFIXES : List String := [".py"]

/-- `importlib.machinery.BYTECODE_SUFFIXES`. -/
def BYTECODE_SUFFIXES : List String := [".pyc"]

/-- `_path_from_filename` under CPython 3 (`is_jython = False`,
`sys.version_info > (3, 0)`): the identity. -/
def pathFromFilename (p : Path) : Path := p

/-- `_is_namespace(modname)`: `pkg_resources` is available and the name is
registered in `pkg_resources._namespace_packages` (an absent
`pkg_resources` behaves as the empty registry). -/
def isNamespaceName (env : Env) (modname : String) : Bool :=
  env.nsPkgs.contains modname

/-- `_is_setuptools_namespace(location)`: read the first 4096 bytes of
`location/__init__.py` and test for the marker byte strings; an unreadable
file (IOError) falls through and the function returns Python `None`, which
is falsy at the call site, so the model returns `false` there. -/
def isSetuptoolsNamespace (fs : FS) (location : Path) : Bool :=
  fs.magicInits.contains (pathJoin location "__init__.py")

/-- Whether a string starts with a dot (`name.startswith('.')`), computed
on the character list so that it evaluates inside the kernel. -/
def strStartsWithDot (s : String) : Bool :=
  match s.data with
  | [] => false
  | c :: _ => c = '.'

/-- `s.split('.')` (Python `str.split` with an explicit separator keeps
empty pieces), computed on the character list. -/
def splitDotAux : List Char → List Char → List String
  | [], acc => [⟨acc.reverse⟩]
  | c :: rest, acc =>
    if c = '.' then ⟨acc.reverse⟩ :: splitDotAux rest []
    else splitDotAux rest (c :: acc)

/-- `s.split('.')`. -/
def splitDot (s : String) : List String := splitDotAux s.data []

/-! ### `imp.find_module` (CPython 3 `Lib/imp.py`) -/

/-- One step of `imp.find_module`'s per-directory search: the package check
(`__init__` with a source or bytecode suffix) runs before the suffix scan
(extension suffixes, then source, then bytecode).  Returns the module type
and location on a hit. -/
def impFindInEntry (fs : FS) (name : String) (entry : Path) :
    Option (ModType × Path) :=
  let packageDirectory := pathJoin entry name
  if isfile fs (pathJoin packageDirectory "__init__.py")
      || isfile fs (pathJoin packageDirectory "__init__.pyc") then
    some (ModType.PKG_DIRECTORY, packageDirectory)
  else if isfile fs (pathJoin entry (name ++ ".so")) then
    some (ModType.C_EXTENSION, pathJoin entry (name ++ ".so"))
  else if isfile fs (pathJoin entry (name ++ ".py")) then
    some (ModType.PY_SOURCE, pathJoin entry (name ++ ".py"))
  else if isfile fs (pathJoin entry (name ++ ".pyc")) then
    some (ModType.PY_COMPILED, pathJoin entry (name ++ ".pyc"))
  else
    none

/-- Scan the entries of a search path in order. -/
def impFindInPath (fs : FS) (name : String) :
    List Path → Option (ModType × Path)
  | [] => none
  | entry :: rest =>
    match impFindInEntry fs name entry with
    | some r => some r
    | none => impFindInPath fs name rest

/-- `imp.find_module(name, path)`.  With `path = None` the builtin and
frozen tables are consulted first and the search falls back to `sys.path`;
with an explicit path list only that list is searched.  A missing module
raises ImportError; a leading dot in the name raises ImportError as well.
Returns the module type and the found location (`none` for builtin and
frozen modules). -/
def impFindModule (env : Env) (name : String) (path : Option (List Path)) :
    Except Err (ModType × Option Path) :=
  if strStartsWithDot name then .error .importError
  else
    match path with
    | none =>
      if env.builtins.contains name then .ok (ModType.C_BUILTIN, none)
      else if env.frozen.contains name then .ok (ModType.PY_FROZEN, none)
      else
        match impFindInPath env.fs name env.sysPath with
        | some (t, loc) => .ok (t, some loc)
        | none => .error .importError
    | some p =>
      match impFindInPath env.fs name p with
      | some (t, loc) => .ok (t, some loc)
      | none => .error .importError

/-! ### Archive (zip) strategy -/

/-- `zipimport.zipimporter(path)`: succeeds exactly when `path` is a
readable zip archive (an entry of `fs.zips`), otherwise raises
`ZipImportError`. -/
def mkZipImporter (fs : FS) (p : Path) : Option ZipImp :=
  match fs.zips.find? (fun z => z.1 = p) with
  | some (a, ms) => some ⟨a, ms⟩
  | none => none

/-- `importer.find_module(name)` on a zipimporter handle.  The source
queries both a single component (`modpath[0]`) and the `os.sep`-joined full
path, so the query is a component list. -/
def zipImpFind (z : ZipImp) (name : List String) : Bool :=
  z.members.contains name

/-- Whether a `Pic` has an entry for a path (`entry_path not in pic`). -/
def picContains (pic : Pic) (p : Path) : Bool :=
  pic.any (fun e => e.1 = p)

/-- Loop body of `_precache_zipimporters` over the chosen path list.
Besides the updated cache it returns, as instrumentation, the list of
entries for which `zipimport.zipimporter` was actually invoked (i.e. those
not already present in the cache); the second component does not exist in
the source. -/
def precacheZipLoop (fs : FS) (pic : Pic) : List Path → Pic × List Path
  | [] => (pic, [])
  | entry :: rest =>
    if picContains pic entry then
      precacheZipLoop fs pic rest
    else
      match mkZipImporter fs entry with
      | some z =>
        let r := precacheZipLoop fs (pic ++ [(entry, some z)]) rest
        (r.1, entry :: r.2)
      | none =>
        -- ZipImportError: `continue` without storing anything in the cache.
        let r := precacheZipLoop fs pic rest
        (r.1, entry :: r.2)

/-- `_precache_zipimporters(path)`: `path = path or sys.path` (Python `or`,
so an empty list also falls back to `sys.path`). -/
def precacheZipimporters (env : Env) (pic : Pic) (path : Option (List Path)) :
    Pic × List Path :=
  let chosen :=
    match path with
    | none => env.sysPath
    | some p => if p = [] then env.sysPath else p
  precacheZipLoop env.fs pic chosen

/-- `_search_zip(modpath, pic)`: scan the cached importers in order;
on the first importer that finds `modpath[0]`, demand that it also finds
the fully joined path (else ImportError aborts the whole search), and
return `(PY_ZIPMODULE, abspath(filepath) + sep + sep.join(modpath),
filepath)`. -/
def searchZip (modpath : List String) : Pic → Except Err (ModType × Path × Path)
  | [] => .error .importError
  | (filepath, importer) :: rest =>
    match importer with
    | none => searchZip modpath rest
    | some z =>
      if zipImpFind z [modpath.headD ""] then
        if zipImpFind z modpath then
          .ok (ModType.PY_ZIPMODULE, abspath filepath ++ modpath, filepath)
        else .error .importError
      else searchZip modpath rest

/-! ### PEP 420 strategy (`importlib.machinery.PathFinder`) -/

/-- Result of `importlib.machinery.PathFinder.find_spec`:
the origin string (`'namespace'` for an implicit namespace package, else a
file path, kept alongside in `originPath`), and the submodule search
locations. -/
structure PFSpec where
  name : String
  origin : Option String := none
  originPath : Option Path := none
  subLocs : List Path := []
deriving DecidableEq, Repr

/-- Per-entry step of `PathFinder`: a directory with an init marker is a
regular package; a directory without one contributes a namespace portion;
otherwise files are tried with extension, source and bytecode suffixes. -/
def pathFinderEntry (fs : FS) (name : String) (entry : Path) :
    Option PFSpec ⊕ Option Path :=
  let d := pathJoin entry name
  if isdir fs d then
    if isfile fs (pathJoin d "__init__.py") || isfile fs (pathJoin d "__init__.pyc") then
      .inl (some { name := name, origin := some (pathStr (pathJoin d "__init__.py"))
                   originPath := some (pathJoin d "__init__.py")
                   subLocs := [d] })
    else .inr (some d)
  else if isfile fs (pathJoin entry (name ++ ".so")) then
    .inl (some { name := name, origin := some (pathStr (pathJoin entry (name ++ ".so")))
                 originPath := some (pathJoin entry (name ++ ".so")) })
  else if isfile fs (pathJoin entry (name ++ ".py")) then
    .inl (some { name := name, origin := some (pathStr (pathJoin entry (name ++ ".py")))
                 originPath := some (pathJoin entry (name ++ ".py")) })
  else if isfile fs (pathJoin entry (name ++ ".pyc")) then
    .inl (some { name := name, origin := some (pathStr (pathJoin entry (name ++ ".pyc")))
                 originPath := some (pathJoin entry (name ++ ".pyc")) })
  else .inr none

/-- Accumulating loop of `PathFinder.find_spec` over the path entries. -/
def pathFinderLoop (fs : FS) (name : String) (portions : List Path) :
    List Path → Option PFSpec
  | [] =>
    if portions = [] then none
    else some { name := name, origin := some "namespace", subLocs := portions }
  | entry :: rest =>
    match pathFinderEntry fs name entry with
    | .inl r => r
    | .inr (some portion) => pathFinderLoop fs name (portions ++ [portion]) rest
    | .inr none => pathFinderLoop fs name portions rest

/-- `importlib.machinery.PathFinder.find_spec(name, path)`; `path = None`
searches `sys.path`. -/
def pathFinderFindSpec (env : Env) (name : String) (path : Option (List Path)) :
    Option PFSpec :=
  pathFinderLoop env.fs name [] (path.getD env.sysPath)

/-! ### The finder classes -/

/-- Which finder produced a spec (`_find_spec_with_path` returns the finder
object for the later `contribute_to_path` dispatch). -/
inductive FinderTag where
  | impF
  | zipF
  | pep420F
deriving DecidableEq, Repr

/-- `ImpFinder.find_module`: delegate to `imp.find_module`; ImportError
becomes `None`; otherwise build a `ModuleSpec` from the returned filename
and type. -/
def impFinderFindModule (env : Env) (modname : String)
    (submodulePath : Option (List Path)) : Option ModuleSpec :=
  match impFindModule env modname submodulePath with
  | .error _ => none
  | .ok (t, loc) => some { name := modname, type := some t, location := loc }

/-- `ImpFinder.contribute_to_path`: builtins contribute nothing; a
setuptools-namespace init expands the search to same-named directories
across all of `sys.path`; otherwise the contribution is the spec's own
location. -/
def impFinderContribute (env : Env) (spec : ModuleSpec)
    (processed : List String) : Option (List Path) :=
  match spec.location with
  | none => none
  | some location =>
    if isSetuptoolsNamespace env.fs location then
      some ((env.sysPath.filter (fun p => isdir env.fs (p ++ processed))).map
        (fun p => p ++ processed))
    else
      some [location]

/-- `ZipFinder.find_module`: `_search_zip` over the precached importers;
ImportError becomes `None`; on success the spec carries `origin='egg'` and
the archive path in `submodule_search_locations`. -/
def zipFinderFindModule (pic : Pic) (modname : String)
    (moduleParts : List String) : Option ModuleSpec :=
  match searchZip moduleParts pic with
  | .error _ => none
  | .ok (fileType, filename, p) =>
    some { name := modname, location := some filename, origin := some "egg"
           type := some fileType, submodule_search_locations := SubLocs.zipPath p }

/-- `PEP420SpecFinder.find_module`: delegate to `PathFinder.find_spec` and
re-wrap: `location` is the origin unless the origin is the literal
`'namespace'`; `type` is `PY_NAMESPACE` for a namespace origin and Python
`None` otherwise. -/
def pep420FindModule (env : Env) (modname : String)
    (submodulePath : Option (List Path)) : Option ModuleSpec :=
  match pathFinderFindSpec env modname submodulePath with
  | none => none
  | some pf =>
    let location := if pf.origin ≠ some "namespace" then pf.originPath else none
    let t := if pf.origin = some "namespace" then some ModType.PY_NAMESPACE else none
    some { name := pf.name, location := location, origin := pf.origin
           type := t, submodule_search_locations := SubLocs.paths pf.subLocs }

/-- `contribute_to_path` dispatched on the finder that produced the spec.
`ZipFinder` inherits the base `Finder.contribute_to_path`, which returns
`None`. -/
def contributeToPath (env : Env) (tag : FinderTag) (spec : ModuleSpec)
    (processed : List String) : Option (List Path) :=
  match tag with
  | .impF => impFinderContribute env spec processed
  | .zipF => none
  | .pep420F =>
    if spec.type = some ModType.PY_NAMESPACE then
      match spec.submodule_search_locations with
      | SubLocs.paths l => some l
      | _ => none
    else none

/-- `_find_spec_with_path`: construct the finder chain (the `ZipFinder`
constructor precaches zipimporters for `search_path`, mutating the global
cache) and return the first finder result, else ImportError. -/
def findSpecWithPath (env : Env) (pic : Pic) (searchPath : List Path)
    (modname : String) (moduleParts : List String) (_processed : List String)
    (submodulePath : Option (List Path)) :
    Except Err (FinderTag × ModuleSpec) × Pic :=
  let pic1 := (precacheZipimporters env pic (some searchPath)).1
  match impFinderFindModule env modname submodulePath with
  | some spec => (.ok (.impF, spec), pic1)
  | none =>
    match zipFinderFindModule pic1 modname moduleParts with
    | some spec => (.ok (.zipF, spec), pic1)
    | none =>
      match pep420FindModule env modname submodulePath with
      | some spec => (.ok (.pep420F, spec), pic1)
      | none => (.error .importError, pic1)

/-- Python `or` for the `submodule_path or path` expressions: `None` and
the empty list are both falsy. -/
def pyOrPaths (a : Option (List Path)) (b : Option (List Path)) :
    Option (List Path) :=
  match a with
  | none => b
  | some l => if l = [] then b else some l

/-- The `while modpath:` loop of `_find_spec`, recursing on the remaining
components.  Each iteration pops the next component, runs the finder chain
with search path `_path` and candidate paths `submodule_path or path`,
appends the component to `processed`, recomputes the submodule path when
components remain, and rewrites `submodule_search_locations` of a
`PKG_DIRECTORY` spec; the spec of the last iteration is returned. -/
def findSpecLoop (env : Env) (pic : Pic) (searchPath : List Path)
    (origPath : Option (List Path)) (moduleParts : List String) :
    List String → List String → Option (List Path) →
    Except Err ModuleSpec × Pic
  | [], _, _ => (.error .unboundLocal, pic)
  | modname :: rest, processed, submodulePath =>
    match findSpecWithPath env pic searchPath modname moduleParts processed
        (pyOrPaths submodulePath origPath) with
    | (.error e, pic1) => (.error e, pic1)
    | (.ok (tag, spec0), pic1) =>
      let processed1 := processed ++ [modname]
      let submodulePath1 :=
        if rest ≠ [] then contributeToPath env tag spec0 processed1
        else submodulePath
      let spec1 :=
        if spec0.type = some ModType.PKG_DIRECTORY then
          { spec0 with submodule_search_locations :=
              match submodulePath1 with
              | none => SubLocs.noLocs
              | some l => SubLocs.paths l }
        else spec0
      if rest = [] then (.ok spec1, pic1)
      else findSpecLoop env pic1 searchPath origPath moduleParts rest
        processed1 submodulePath1

/-- `_find_spec(modpath, path)`: `_path = path or sys.path`; the argument
list is copied before being consumed (`modpath = modpath[:]`), another copy
is kept as `module_parts`, and the loop starts with empty `processed` and
no submodule path.  A call with an empty `modpath` would leave the loop's
`spec` unbound (UnboundLocalError on `return spec`). -/
def findSpec (env : Env) (pic : Pic) (modpath : List String)
    (path : Option (List Path)) : Except Err ModuleSpec × Pic :=
  let searchPath :=
    match path with
    | none => env.sysPath
    | some p => if p = [] then env.sysPath else p
  findSpecLoop env pic searchPath path modpath modpath [] none

/-! ### Source helpers and classifiers -/

/-- `_has_init(directory)`: try `__init__` with extensions
`PY_SOURCE_EXTS + ('pyc', 'pyo')` (existence check, not file check) and
return the first hit, else `None`. -/
def hasInitLoop (fs : FS) (modOrPack : Path) : List String → Option Path
  | [] => none
  | ext :: rest =>
    if pathExists fs (pathAddSuffix modOrPack ("." ++ ext)) then
      some (pathAddSuffix modOrPack ("." ++ ext))
    else hasInitLoop fs modOrPack rest

/-- `_has_init`. -/
def hasInit (fs : FS) (directory : Path) : Option Path :=
  hasInitLoop fs (pathJoin directory "__init__") (PY_SOURCE_EXTS ++ ["pyc", "pyo"])

/-- `get_source_file(filename, include_no_ext)`: for each source extension
try `base.ext`; on failure, optionally accept an extensionless existing
`base`; else raise `NoSourceFile`. -/
def getSourceFile (fs : FS) (filename : Path) (includeNoExt : Bool := false) :
    Except Err Path :=
  let filename := abspath (pathFromFilename filename)
  let base := pathSplitextBase filename
  let origExt := pathSplitextExt filename
  match PY_SOURCE_EXTS.find? (fun ext => pathExists fs (pathAddSuffix base ("." ++ ext))) with
  | some ext => .ok (pathAddSuffix base ("." ++ ext))
  | none =>
    if includeNoExt && origExt = "" && pathExists fs base then .ok base
    else .error .noSourceFile

/-- `is_python_source(filename)`. -/
def isPythonSource (filename : Path) : Bool :=
  PY_SOURCE_EXTS.contains ((pathSplitextExt filename).drop 1)

/-- Lines 616-625 of the source: run `_find_spec` against the context
directory first when one is given, falling back to the plain path on
ImportError; also report the `location` local variable, which stays `None`
unless the context branch ran (it is read again in the compiled-module
fallback below). -/
def resolveWithContext (env : Env) (pic : Pic) (modpath : List String)
    (path : Option (List Path)) (context : Option Path) :
    (Except Err (ModuleSpec × Option Path)) × Pic :=
  match context with
  | some c =>
    match findSpec env pic modpath (some [c]) with
    | (.ok spec, pic1) => (.ok (spec, spec.location), pic1)
    | (.error _, pic1) =>
      match findSpec env pic1 modpath path with
      | (.ok spec, pic2) => (.ok (spec, spec.location), pic2)
      | (.error e, pic2) => (.error e, pic2)
  | none =>
    match findSpec env pic modpath path with
    | (.ok spec, pic1) => (.ok (spec, none), pic1)
    | (.error e, pic1) => (.error e, pic1)

/-- The post-processing block of `_spec_from_modpath` (lines 626-638),
factored out; `_location` is the function's `location` local at that point
(stale: `None`, or the context-resolved location).

For a `PY_COMPILED` spec the source tries `get_source_file`; on success it
executes `spec._replace(location=location, type=ModuleSpec.PY_SOURCE)`, but
the class `ModuleSpec` (a namedtuple) has no attribute `PY_SOURCE`, so
evaluating `ModuleSpec.PY_SOURCE` raises `AttributeError`; on
`NoSourceFile` it executes `spec.replace(location=location)`, but a
namedtuple instance has no method `replace` (only `_replace`), so the
attribute access raises `AttributeError` as well.  Both are embedded as the
corresponding `attributeError` results.

A `C_BUILTIN` spec has its location stripped; a `PKG_DIRECTORY` spec has
its location replaced by `_has_init(location)` (which may be `None`) and
its type set to `PY_SOURCE`; anything else is returned unchanged. -/
def specPostProcess (env : Env) (spec : ModuleSpec) (_location : Option Path) :
    Except Err ModuleSpec :=
  if spec.type = some ModType.PY_COMPILED then
    match spec.location with
    | none => .error .typeError
    | some loc =>
      match getSourceFile env.fs loc with
      | .ok _sourceLocation =>
        -- `return spec._replace(location=location, type=ModuleSpec.PY_SOURCE)`
        .error (.attributeError "PY_SOURCE")
      | .error .noSourceFile =>
        -- `return spec.replace(location=location)`
        .error (.attributeError "replace")
      | .error e => .error e
  else if spec.type = some ModType.C_BUILTIN then
    .ok { spec with location := none }
  else if spec.type = some ModType.PKG_DIRECTORY then
    .ok { spec with location := hasInit env.fs (spec.location.getD []),
                    type := some ModType.PY_SOURCE }
  else .ok spec

/-- `_spec_from_modpath` proper: the assertion, the context resolution and
the post-processing. -/
def specFromModpath (env : Env) (pic : Pic) (modpath : List String)
    (path : Option (List Path) := none) (context : Option Path := none) :
    Except Err ModuleSpec × Pic :=
  if modpath = [] then (.error .assertionError, pic)
  else
    match resolveWithContext env pic modpath path context with
    | (.error e, pic1) => (.error e, pic1)
    | (.ok (spec, location), pic1) => (specPostProcess env spec location, pic1)

/-- `file_info_from_modpath(modpath, path, context_file)`: take the context
file's directory; special-case a leading `xml` component (try `_xmlplus`
first, fall back on ImportError) and the exact identifier `['os', 'path']`
(resolved directly to `os.path.__file__` without consulting the chain). -/
def fileInfoFromModpath (env : Env) (pic : Pic) (modpath : List String)
    (path : Option (List Path) := none) (contextFile : Option Path := none) :
    Except Err ModuleSpec × Pic :=
  let context := contextFile.map dirname
  if modpath.headD "" = "xml" ∧ modpath ≠ [] then
    match specFromModpath env pic (["_xmlplus"] ++ modpath.tail) path context with
    | (.ok spec, pic1) => (.ok spec, pic1)
    | (.error .importError, pic1) => specFromModpath env pic1 modpath path context
    | (.error e, pic1) => (.error e, pic1)
  else if modpath = ["os", "path"] then
    (.ok { name := "os.path", location := some env.osPathFile
           type := some ModType.PY_SOURCE }, pic)
  else specFromModpath env pic modpath path context

/-- `file_from_modpath`: the location of the resolved spec. -/
def fileFromModpath (env : Env) (pic : Pic) (modpath : List String)
    (path : Option (List Path) := none) (contextFile : Option Path := none) :
    Except Err (Option Path) × Pic :=
  match fileInfoFromModpath env pic modpath path contextFile with
  | (.ok spec, pic1) => (.ok spec.location, pic1)
  | (.error e, pic1) => (.error e, pic1)

/-! ### File-to-name resolution -/

/-- `check_modpath_has_init(path, mod_path)`: walk the components, joining
onto `path`; every step must have an init marker or be a registered
namespace package under its dotted prefix. -/
def checkModpathHasInitLoop (env : Env) (modpath : List String) (path : Path) :
    List String → Bool
  | [] => true
  | part :: rest =>
    let modpath1 := modpath ++ [part]
    let path1 := pathJoin path part
    if (hasInit env.fs path1).isNone
        && !isNamespaceName env (String.intercalate "." modpath1) then
      false
    else checkModpathHasInitLoop env modpath1 path1 rest

/-- `check_modpath_has_init`. -/
def checkModpathHasInit (env : Env) (path : Path) (modPath : List String) : Bool :=
  checkModpathHasInitLoop env [] path modPath

/-- Python `dict` lookup on the association-list model of `extrapath`
(first binding of the key wins; a real dict has unique keys). -/
def dictGet (d : List (Path × String)) (k : Path) : Option String :=
  (d.find? (fun e => e.1 = k)).map (·.2)

/-- The `extrapath` phase of `modpath_from_file_with_callback`: iterate the
canonicalized keys; on a prefix match of the extension-stripped base,
split the remainder on the separator, validate the remainder without its
last component through the callback, and return
`extrapath[path_].split('.') + submodpath` (the full remainder).  A missing
key after canonicalization would raise KeyError. -/
def extrapathLoop (env : Env) (cb : Path → List String → Bool)
    (base : Path) (full : List (Path × String)) :
    List (Path × String) → Except Err (Option (List String))
  | [] => .ok none
  | (k, _) :: rest =>
    let path_ := canonicalizePath k
    let path := abspath path_
    if path ≠ [] ∧ normcase (base.take path.length) = normcase path then
      let submodpath := (base.drop path.length).filter (· ≠ "")
      if cb path submodpath.dropLast then
        match dictGet full path_ with
        | some prefixName => .ok (some (splitDot prefixName ++ submodpath))
        | none => .error .keyError
      else extrapathLoop env cb base full rest
    else extrapathLoop env cb base full rest

/-- The `sys.path` phase of `modpath_from_file_with_callback`: iterate the
canonicalized, cache-normalized global search path; on a prefix match
(`startswith`), split the remainder, validate it without its last component
and return it whole; exhausting the roots raises ImportError. -/
def sysPathLoop (env : Env) (cb : Path → List String → Bool) (base : Path) :
    List Path → Except Err (List String)
  | [] => .error .importError
  | p :: rest =>
    let path := cacheNormalizePath (canonicalizePath p)
    if path ≠ [] ∧ (normcase base).take path.length = path then
      let modpath := (base.drop path.length).filter (· ≠ "")
      if cb path modpath.dropLast then .ok modpath
      else sysPathLoop env cb base rest
    else sysPathLoop env cb base rest

/-- `modpath_from_file_with_callback(filename, extrapath, is_package_cb)`. -/
def modpathFromFileWithCallback (env : Env) (filename : Path)
    (extrapath : Option (List (Path × String)))
    (cb : Path → List String → Bool) : Except Err (List String) :=
  let filename := canonicalizePath (pathFromFilename filename)
  let base := pathSplitextBase filename
  match extrapath with
  | some xp =>
    match extrapathLoop env cb base xp xp with
    | .error e => .error e
    | .ok (some r) => .ok r
    | .ok none => sysPathLoop env cb base env.sysPath
  | none => sysPathLoop env cb base env.sysPath

/-- `modpath_from_file(filename, extrapath)`: the callback is
`check_modpath_has_init`. -/
def modpathFromFile (env : Env) (filename : Path)
    (extrapath : Option (List (Path × String)) := none) :
    Except Err (List String) :=
  modpathFromFileWithCallback env filename extrapath (checkModpathHasInit env)

/-! ### Classifiers -/

/-- `is_standard_module(modname, std_path)`: resolve the top-level
component; ImportError means not standard; a location-less module is
standard unless it is a registered namespace package; a location under
`EXT_LIB_DIR` is never standard (checked before `std_path`); otherwise test
prefix membership in each `std_path` directory (`STD_LIB_DIRS` when
`None`). -/
def isStandardModule (env : Env) (pic : Pic) (modname : String)
    (stdPath : Option (List Path) := none) : Bool × Pic :=
  let top := (splitDot modname).headD ""
  match fileFromModpath env pic [top] with
  | (.error _, pic1) => (false, pic1)
  | (.ok none, pic1) => (!isNamespaceName env top, pic1)
  | (.ok (some filename), pic1) =>
    let filename := normalizePath filename
    if filename.take (cacheNormalizePath env.extLibDir).length
        = cacheNormalizePath env.extLibDir then
      (false, pic1)
    else
      let dirs := stdPath.getD env.stdLibDirs
      (dirs.any (fun p =>
        filename.take (cacheNormalizePath p).length = cacheNormalizePath p), pic1)

/-- `is_relative(modname, from_file)`, instrumented: the second component
reports whether the `imp.find_module` lookup was attempted (it is not part
of the source's return value). -/
def isRelativeI (env : Env) (modname : String) (fromFile : Path) : Bool × Bool :=
  let fromFile1 := if !isdir env.fs fromFile then dirname fromFile else fromFile
  if env.sysPath.contains fromFile1 then (false, false)
  else
    match impFindModule env ((splitDot modname).headD "") (some [fromFile1]) with
    | .ok _ => (true, true)
    | .error _ => (false, true)

/-! ### Bulk discovery (`get_module_files`) -/

/-- A heap of Python list objects; an address is an index. -/
abbrev Store := List (List String)

/-- Read the list object at an address (an out-of-range address dereferences
to the empty list; valid callers pass in-range addresses). -/
def storeGet (s : Store) (a : Nat) : List String := s.getD a []

/-- Overwrite the list object at an address. -/
def storeSet (s : Store) (a : Nat) (v : List String) : Store := s.set a v

/-- `lst.pop(0)` on the list object at address `a`. -/
def popFront (s : Store) (a : Nat) : Option String × Store :=
  match storeGet s a with
  | [] => (none, s)
  | x :: xs => (some x, storeSet s a xs)

/-- The `while modpath:` loop of `_find_spec`, operating on the working
list object at address `waddr` through the store.  `fuel` bounds the number
of iterations; the caller supplies the length of the working list, and each
iteration pops exactly one element. -/
def findSpecStoreLoop (env : Env) (searchPath : List Path)
    (origPath : Option (List Path)) (moduleParts : List String) (waddr : Nat) :
    Nat → Pic → Store → List String → Option (List Path) →
    Except Err ModuleSpec × Pic × Store
  | 0, pic, store, _, _ => (.error .unboundLocal, pic, store)
  | fuel + 1, pic, store, processed, submodulePath =>
    match popFront store waddr with
    | (none, store1) => (.error .unboundLocal, pic, store1)
    | (some modname, store1) =>
      match findSpecWithPath env pic searchPath modname moduleParts processed
          (pyOrPaths submodulePath origPath) with
      | (.error e, pic1) => (.error e, pic1, store1)
      | (.ok (tag, spec0), pic1) =>
        let processed1 := processed ++ [modname]
        let submodulePath1 :=
          if storeGet store1 waddr ≠ [] then contributeToPath env tag spec0 processed1
          else submodulePath
        let spec1 :=
          if spec0.type = some ModType.PKG_DIRECTORY then
            { spec0 with submodule_search_locations :=
                match submodulePath1 with
                | none => SubLocs.noLocs
                | some l => SubLocs.paths l }
          else spec0
        if storeGet store1 waddr = [] then (.ok spec1, pic1, store1)
        else findSpecStoreLoop env searchPath origPath moduleParts waddr fuel
          pic1 store1 processed1 submodulePath1

/-- `_find_spec(modpath, path)` in the reference-cell model: the caller's
list object lives at `addr`; `modpath = modpath[:]` allocates a fresh copy
and the loop consumes only that copy (`module_parts = modpath[:]` is a
second copy, passed by value since no finder mutates it). -/
def findSpecStore (env : Env) (pic : Pic) (store : Store) (addr : Nat)
    (path : Option (List Path)) : Except Err ModuleSpec × Pic × Store :=
  let searchPath :=
    match path with
    | none => env.sysPath
    | some p => if p = [] then env.sysPath else p
  let v := storeGet store addr
  let store1 := store ++ [v]
  let waddr := store.length
  findSpecStoreLoop env searchPath path v waddr v.length pic store1 [] none

/-! ### Decidability of result equality -/

/-- Decidable equality for `Except` results (not provided by the core
library of this toolchain). -/
def exceptDecEq {ε α : Type} [DecidableEq ε] [DecidableEq α] :
    DecidableEq (Except ε α)
  | .ok a, .ok b =>
    if h : a = b then .isTrue (h ▸ rfl)
    else .isFalse fun hh => h (Except.ok.inj hh)
  | .ok _, .error _ => .isFalse fun h => Except.noConfusion h
  | .error _, .ok _ => .isFalse fun h => Except.noConfusion h
  | .error e, .error e' =>
    if h : e = e' then .isTrue (h ▸ rfl)
    else .isFalse fun hh => h (Except.error.inj hh)

instance {ε α : Type} [DecidableEq ε] [DecidableEq α] :
    DecidableEq (Except ε α) := exceptDecEq

/-! ### Concrete environments (used by witnesses and counterexamples) -/

/-- A regular package: root `r` with `__init__.py`, package `r/pkg` with
`__init__.py` and `sub.py`; the search path is `[r]`. -/
def envPkg : Env :=
  { fs := { files := [["r", "__init__.py"], ["r", "pkg", "__init__.py"],
              ["r", "pkg", "sub.py"]],
            dirs := [["r"], ["r", "pkg"]] },
    sysPath := [["r"]] }

/-- A module backed only by bytecode: `r/mod.pyc` with no `r/mod.py`. -/
def envOnlyPyc : Env :=
  { fs := { files := [["r", "__init__.py"], ["r", "mod.pyc"]], dirs := [["r"]] },
    sysPath := [["r"]] }

/-- A filesystem holding both `r/mod.pyc` and its source `r/mod.py`. -/
def envPycWithSource : Env :=
  { fs := { files := [["r", "mod.pyc"], ["r", "mod.py"]], dirs := [["r"]] },
    sysPath := [["r"]] }

/-- A zip archive `z/arch.zip` on the search path, containing the package
`m` and the member `m/s`. -/
def envZip : Env :=
  { fs := { zips := [(["z", "arch.zip"], [["m"], ["m", "s"]])] },
    sysPath := [["z", "arch.zip"]] }

/-- A package `x/pkg` used with an `extrapath` mapping `x -> "p"`. -/
def envExtra : Env :=
  { fs := { files := [["x", "pkg", "__init__.py"], ["x", "pkg", "mod.py"]],
            dirs := [["x"], ["x", "pkg"]] },
    sysPath := [] }

/-- A search path entry `notzip` that is not a readable zip archive. -/
def envNotZip : Env := { fs := {}, sysPath := [["notzip"]] }

/-- A module `m.py` living under `EXT_LIB_DIR = lib/sp`, which is also the
single search root. -/
def envExtLib : Env :=
  { fs := { files := [["lib", "sp", "m.py"]], dirs := [["lib", "sp"]] },
    sysPath := [["lib", "sp"]], extLibDir := ["lib", "sp"] }

/-- A directory `sp/pkg` (containing `m.py`) whose parent `sp` is a search
root. -/
def envRel : Env :=
  { fs := { files := [["sp", "pkg", "m.py"]], dirs := [["sp"], ["sp", "pkg"]] },
    sysPath := [["sp"]] }

/-! ### Shape of successful archive lookups -/

/-- Any successful `_search_zip` returns the `PY_ZIPMODULE` tag, the
synthetic location `abspath(filepath) + sep + sep.join(modpath)`, and the
path of a cached archive whose importer finds the joined path. -/
theorem searchZip_ok_shape (modpath : List String) (pic : Pic) :
    ∀ {t : ModType} {loc fp : Path}, searchZip modpath pic = .ok (t, loc, fp) →
      t = ModType.PY_ZIPMODULE ∧ loc = abspath fp ++ modpath ∧
        ∃ z, (fp, some z) ∈ pic ∧ zipImpFind z modpath = true := by
  induction pic with
  | nil => intro t loc fp h; simp [searchZip] at h
  | cons e rest ih =>
    intro t loc fp h
    obtain ⟨filepath, importer⟩ := e
    cases importer with
    | none =>
      simp only [searchZip] at h
      obtain ⟨h1, h2, z, hz, hf⟩ := ih h
      exact ⟨h1, h2, z, List.mem_cons_of_mem _ hz, hf⟩
    | some z =>
      simp only [searchZip] at h
      split at h
      · split at h
        · simp only [Except.ok.injEq, Prod.mk.injEq] at h
          obtain ⟨h1, h2, h3⟩ := h
          subst h3
          exact ⟨h1.symm, h2.symm, z, List.mem_cons_self _ _, by assumption⟩
        · cases h
      · obtain ⟨h1, h2, z', hz, hf⟩ := ih h
        exact ⟨h1, h2, z', List.mem_cons_of_mem _ hz, hf⟩

/-! ### Claim C2 -/

/-- C2: the claim says that for a chain-lookup result of kind COMPILED with
no sibling source file, `_spec_from_modpath` returns the COMPILED
descriptor unchanged (fails-soft).  The code instead crashes: in the
`NoSourceFile` handler it evaluates `spec.replace(location=location)`, but
a namedtuple has no method `replace` (only `_replace`), so an
`AttributeError` is raised.  At the concrete failing input (a module backed
only by `r/mod.pyc`): the chain lookup indeed returns a `PY_COMPILED`
descriptor, `get_source_file` indeed fails, and `_spec_from_modpath`
raises `AttributeError` instead of returning the descriptor. -/
theorem c2_compiled_no_source_attribute_error :
    (findSpec envOnlyPyc [] ["mod"] none).1 =
      .ok { name := "mod", type := some ModType.PY_COMPILED,
            location := some ["r", "mod.pyc"] }
    ∧ getSourceFile envOnlyPyc.fs ["r", "mod.pyc"] = .error .noSourceFile
    ∧ (specFromModpath envOnlyPyc [] ["mod"] none none).1 =
        .error (.attributeError "replace") :=
  ⟨by decide, by decide, by decide⟩

/-! ### Claim C3 -/

/-- C3: the claim says that for a COMPILED chain-lookup result whose
sibling source file exists, `_spec_from_modpath` returns a new descriptor
with kind SOURCE and the located source path.  In the code the success
branch evaluates `spec._replace(location=location,
type=ModuleSpec.PY_SOURCE)`, but the class `ModuleSpec` has no attribute
`PY_SOURCE` (the intended constant lives on `ModuleType`, used correctly
three lines below), so the branch raises `AttributeError`.  At the
concrete input (a `PY_COMPILED` descriptor for `r/mod.pyc` with `r/mod.py`
present — the post-processing input; under the CPython chain of this model
a source sibling is always found before the bytecode, so the branch is
reached only through this direct input): `get_source_file` succeeds, and
the post-processing step raises `AttributeError` instead of returning a
SOURCE descriptor. -/
theorem c3_compiled_with_source_attribute_error :
    getSourceFile envPycWithSource.fs ["r", "mod.pyc"] = .ok ["r", "mod.py"]
    ∧ specPostProcess envPycWithSource
        { name := "mod", type := some ModType.PY_COMPILED,
          location := some ["r", "mod.pyc"] } none =
        .error (.attributeError "PY_SOURCE") :=
  ⟨by decide, by decide⟩

/-! ### Claim C4 -/

/-- C4 counterexample: at a concrete successful archive lookup (archive
`z/arch.zip` containing member `m/s`), the descriptor produced by the zip
strategy has kind `PY_ZIPMODULE` and the synthetic location, but its origin
is the string `"egg"`, not `"archive"` as the claim states. -/
theorem c4_origin_egg_counterexample :
    zipFinderFindModule
        [(["z", "arch.zip"],
          some { archive := ["z", "arch.zip"], members := [["m"], ["m", "s"]] })]
        "s" ["m", "s"] =
      some { name := "s", location := some ["z", "arch.zip", "m", "s"],
             origin := some "egg", type := some ModType.PY_ZIPMODULE,
             submodule_search_locations := SubLocs.zipPath ["z", "arch.zip"] }
    ∧ (some "egg" : Option String) ≠ some "archive" :=
  ⟨by decide, by decide⟩

/-- C4 (amended): whenever the archive (zip) lookup strategy succeeds, the
descriptor it produces has kind `PY_ZIPMODULE` (ARCHIVE_MEMBER), a location
of the synthetic form archive-path followed by the member path, and origin
equal to `"egg"` (not `"archive"`); the archive path is also recorded in
`submodule_search_locations`. -/
theorem c4_zip_success_shape (pic : Pic) (modname : String)
    (moduleParts : List String) (spec : ModuleSpec)
    (h : zipFinderFindModule pic modname moduleParts = some spec) :
    spec.type = some ModType.PY_ZIPMODULE ∧ spec.origin = some "egg" ∧
      ∃ fp z, (fp, some z) ∈ pic ∧ zipImpFind z moduleParts = true ∧
        spec.location = some (abspath fp ++ moduleParts) ∧
        spec.submodule_search_locations = SubLocs.zipPath fp := by
  unfold zipFinderFindModule at h
  cases heq : searchZip moduleParts pic with
  | error e => rw [heq] at h; cases h
  | ok r =>
    obtain ⟨ft, fn, p⟩ := r
    rw [heq] at h
    obtain ⟨h1, h2, z, hz, hf⟩ := searchZip_ok_shape moduleParts pic heq
    have hs := Option.some.inj h
    subst hs h1 h2
    exact ⟨rfl, rfl, p, z, hz, hf, rfl, rfl⟩

/-- C4 witness: the amended shape theorem applied at the concrete archive
lookup of the counterexample environment. -/
theorem c4_zip_success_shape_witness :
    (some ModType.PY_ZIPMODULE : Option ModType) = some ModType.PY_ZIPMODULE ∧
      (some "egg" : Option String) = some "egg" ∧
      ∃ fp z,
        (fp, some z) ∈
          [(["z", "arch.zip"],
            some ({ archive := ["z", "arch.zip"],
                    members := [["m"], ["m", "s"]] } : ZipImp))] ∧
        zipImpFind z ["m", "s"] = true ∧
        (some ["z", "arch.zip", "m", "s"] : Option Path) =
          some (abspath fp ++ ["m", "s"]) ∧
        SubLocs.zipPath ["z", "arch.zip"] = SubLocs.zipPath fp :=
  c4_zip_success_shape
    [(["z", "arch.zip"],
      some { archive := ["z", "arch.zip"], members := [["m"], ["m", "s"]] })]
    "s" ["m", "s"]
    { name := "s", location := some ["z", "arch.zip", "m", "s"],
      origin := some "egg", type := some ModType.PY_ZIPMODULE,
      submodule_search_locations := SubLocs.zipPath ["z", "arch.zip"] }
    (by decide)

/-! ### Lemmas on the zipimporter cache -/

/-- Membership in an extended cache. -/
theorem picContains_append (pic : Pic) (e : Path × Option ZipImp) (p : Path) :
    picContains (pic ++ [e]) p = (picContains pic p || decide (e.1 = p)) := by
  simp [picContains, List.any_append]

/-- The precache loop only adds entries, so cached paths stay cached. -/
theorem precacheZipLoop_mono (fs : FS) (e : Path) :
    ∀ (l : List Path) (pic : Pic), picContains pic e = true →
      picContains (precacheZipLoop fs pic l).1 e = true := by
  intro l
  induction l with
  | nil => intro pic h; simpa [precacheZipLoop] using h
  | cons p rest ih =>
    intro pic h
    unfold precacheZipLoop
    split
    · exact ih pic h
    · cases hz : mkZipImporter fs p with
      | some z =>
        simp only [hz]
        exact ih _ (by rw [picContains_append, h]; rfl)
      | none => simp only [hz]; exact ih pic h

/-- An uncached entry of the scanned path list is always attempted. -/
theorem precacheZipLoop_attempts (fs : FS) (e : Path) :
    ∀ (l : List Path) (pic : Pic), e ∈ l → picContains pic e = false →
      e ∈ (precacheZipLoop fs pic l).2 := by
  intro l
  induction l with
  | nil => intro pic h; cases h
  | cons p rest ih =>
    intro pic hmem hnc
    unfold precacheZipLoop
    split
    · rcases List.mem_cons.mp hmem with h | h
      · subst h; simp_all
      · exact ih pic h hnc
    · cases hz : mkZipImporter fs p with
      | some z =>
        simp only [hz]
        by_cases hep : e = p
        · subst hep; exact List.mem_cons_self _ _
        · rcases List.mem_cons.mp hmem with h | h
          · exact absurd h hep
          · refine List.mem_cons_of_mem _ (ih _ h ?_)
            rw [picContains_append, hnc]
            simp only [Bool.false_or, decide_eq_false_iff_not]
            exact fun hpe => hep hpe.symm
      | none =>
        simp only [hz]
        rcases List.mem_cons.mp hmem with h | h
        · subst h; exact List.mem_cons_self _ _
        · exact List.mem_cons_of_mem _ (ih pic h hnc)

/-- A cached entry is never attempted again. -/
theorem precacheZipLoop_no_reattempt (fs : FS) (e : Path) :
    ∀ (l : List Path) (pic : Pic), picContains pic e = true →
      e ∉ (precacheZipLoop fs pic l).2 := by
  intro l
  induction l with
  | nil => intro pic h; simp [precacheZipLoop]
  | cons p rest ih =>
    intro pic hc
    unfold precacheZipLoop
    split
    · exact ih pic hc
    · cases hz : mkZipImporter fs p with
      | some z =>
        simp only [hz]
        intro hmem
        rcases List.mem_cons.mp hmem with h | h
        · subst h; simp_all
        · exact ih _ (by rw [picContains_append, hc]; rfl) h
      | none =>
        simp only [hz]
        intro hmem
        rcases List.mem_cons.mp hmem with h | h
        · subst h; simp_all
        · exact ih pic hc h

/-- A successfully opened entry ends up cached. -/
theorem precacheZipLoop_success_cached (fs : FS) (e : Path) (z : ZipImp)
    (hz : mkZipImporter fs e = some z) :
    ∀ (l : List Path) (pic : Pic), e ∈ l →
      picContains (precacheZipLoop fs pic l).1 e = true := by
  intro l
  induction l with
  | nil => intro pic h; cases h
  | cons p rest ih =>
    intro pic hmem
    unfold precacheZipLoop
    split
    · rcases List.mem_cons.mp hmem with h | h
      · subst h; exact precacheZipLoop_mono fs e rest pic (by assumption)
      · exact ih pic h
    · cases hzp : mkZipImporter fs p with
      | some zp =>
        simp only [hzp]
        rcases List.mem_cons.mp hmem with h | h
        · subst h
          exact precacheZipLoop_mono fs e rest _
            (by rw [picContains_append]; simp)
        · exact ih _ h
      | none =>
        simp only [hzp]
        rcases List.mem_cons.mp hmem with h | h
        · subst h; rw [hzp] at hz; cases hz
        · exact ih pic h

/-- A failed open leaves the cache membership of that path unchanged. -/
theorem precacheZipLoop_failure_not_cached (fs : FS) (e : Path)
    (hz : mkZipImporter fs e = none) :
    ∀ (l : List Path) (pic : Pic),
      picContains (precacheZipLoop fs pic l).1 e = picContains pic e := by
  intro l
  induction l with
  | nil => intro pic; simp [precacheZipLoop]
  | cons p rest ih =>
    intro pic
    unfold precacheZipLoop
    split
    · exact ih pic
    · cases hzp : mkZipImporter fs p with
      | some zp =>
        simp only [hzp]
        rw [ih]
        rw [picContains_append]
        have : p ≠ e := by
          intro hpe; subst hpe; rw [hzp] at hz; cases hz
        simp [this]
      | none => simp only [hzp]; exact ih pic

/-! ### Claim C7 -/

/-- C7 counterexample: the claim says a failure to open a path as an
archive permanently disqualifies it (never retried).  For the concrete
non-archive search-path entry `notzip`, the open primitive is invoked on
the first lookup, the failure is not recorded in the cache, and the second
lookup invokes the open primitive on the very same path again. -/
theorem c7_failed_open_retried_counterexample :
    (precacheZipimporters envNotZip [] none).2 = [["notzip"]]
    ∧ (precacheZipimporters envNotZip
        (precacheZipimporters envNotZip [] none).1 none).2 = [["notzip"]] :=
  ⟨by decide, by decide⟩

/-- C7 (amended): archive-handle creation for a path that opens
successfully occurs at most once across repeated lookups (the handle is
cached and the open primitive is not invoked again on the second call),
while a path that fails to open is not recorded, so the open is silently
re-attempted on every subsequent lookup. -/
theorem c7_cache_behavior (env : Env) (l : List Path) (e : Path) (pic : Pic)
    (hne : l ≠ []) (he : e ∈ l) (hnc : picContains pic e = false) :
    e ∈ (precacheZipimporters env pic (some l)).2
    ∧ ((mkZipImporter env.fs e).isSome = true →
        e ∉ (precacheZipimporters env
          (precacheZipimporters env pic (some l)).1 (some l)).2)
    ∧ (mkZipImporter env.fs e = none →
        e ∈ (precacheZipimporters env
          (precacheZipimporters env pic (some l)).1 (some l)).2) := by
  unfold precacheZipimporters
  simp only [if_neg hne]
  refine ⟨precacheZipLoop_attempts env.fs e l pic he hnc, ?_, ?_⟩
  · intro hsome
    obtain ⟨z, hz⟩ := Option.isSome_iff_exists.mp hsome
    exact precacheZipLoop_no_reattempt env.fs e l _
      (precacheZipLoop_success_cached env.fs e z hz l pic he)
  · intro hnone
    refine precacheZipLoop_attempts env.fs e l _ he ?_
    rw [precacheZipLoop_failure_not_cached env.fs e hnone l pic]
    exact hnc

/-- C7 witness: the amended cache-behavior theorem applied to the concrete
archive `z/arch.zip` (which opens successfully) with an empty cache. -/
theorem c7_cache_behavior_witness :
    ["z", "arch.zip"] ∈ (precacheZipimporters envZip [] (some [["z", "arch.zip"]])).2
    ∧ ((mkZipImporter envZip.fs ["z", "arch.zip"]).isSome = true →
        ["z", "arch.zip"] ∉ (precacheZipimporters envZip
          (precacheZipimporters envZip [] (some [["z", "arch.zip"]])).1
          (some [["z", "arch.zip"]])).2)
    ∧ (mkZipImporter envZip.fs ["z", "arch.zip"] = none →
        ["z", "arch.zip"] ∈ (precacheZipimporters envZip
          (precacheZipimporters envZip [] (some [["z", "arch.zip"]])).1
          (some [["z", "arch.zip"]])).2) :=
  c7_cache_behavior envZip [["z", "arch.zip"]] ["z", "arch.zip"] []
    (by decide) (by decide) (by decide)

/-! ### Claim C8 -/

/-- C8: when the top-level component of a module name resolves to a
location under `EXT_LIB_DIR` (the "definitely third-party" root),
`is_standard_module` returns false regardless of `std_path` — the
third-party prefix test runs and short-circuits before the `std_path`
membership loop. -/
theorem c8_ext_lib_short_circuits (env : Env) (pic : Pic) (modname : String)
    (stdPath : Option (List Path)) (f : Path) (pic1 : Pic)
    (hres : fileFromModpath env pic [(splitDot modname).headD ""] =
      (.ok (some f), pic1))
    (hpref : f.take env.extLibDir.length = env.extLibDir) :
    (isStandardModule env pic modname stdPath).1 = false := by
  simp only [isStandardModule, hres]
  simp [normalizePath, normcase, abspath, cacheNormalizePath, hpref]

/-- C8 witness: the module `m` resolves to `lib/sp/m.py` under
`EXT_LIB_DIR = lib/sp`, and `is_standard_module` returns false even with
`std_path = [lib/sp]` itself. -/
theorem c8_ext_lib_short_circuits_witness :
    fileFromModpath envExtLib [] [(splitDot "m").headD ""] =
      (.ok (some ["lib", "sp", "m.py"]), [])
    ∧ (["lib", "sp", "m.py"] : Path).take envExtLib.extLibDir.length
        = envExtLib.extLibDir
    ∧ (isStandardModule envExtLib [] "m" (some [["lib", "sp"]])).1 = false :=
  ⟨by decide, by decide,
    c8_ext_lib_short_circuits envExtLib [] "m" (some [["lib", "sp"]])
      ["lib", "sp", "m.py"] [] (by decide) (by decide)⟩

/-! ### Claim C9 -/

/-- C9 counterexample: the claim says `is_relative(m, f)` is false whenever
`dirname(f)` is a global search-path root, for every `m` and every path
`f`.  For the concrete `f = sp/pkg`, which is itself a directory, the code
skips the `dirname` step, `sp/pkg` is not in `sys.path` even though
`dirname(f) = sp` is, and the lookup of `m` inside `sp/pkg` succeeds, so
`is_relative` returns true (and the module lookup was attempted). -/
theorem c9_directory_counterexample :
    dirname ["sp", "pkg"] ∈ envRel.sysPath
    ∧ isRelativeI envRel "m" ["sp", "pkg"] = (true, true) :=
  ⟨by decide, by decide⟩

/-- C9 (amended): for every module name `m` and every path `f` that is not
a directory, `is_relative(m, f)` returns false without attempting any
module lookup whenever `dirname(f)` is one of the global search-path roots
(when `f` is itself a directory the code tests `f`, not `dirname(f)`). -/
theorem c9_dirname_on_path_false (env : Env) (modname : String) (f : Path)
    (hnd : isdir env.fs f = false) (hd : dirname f ∈ env.sysPath) :
    isRelativeI env modname f = (false, false) := by
  have hc : env.sysPath.contains (dirname f) = true :=
    List.elem_eq_true_of_mem hd
  simp only [isRelativeI, hnd, Bool.not_false, if_true, hc]

/-- C9 witness: the amended theorem at the concrete non-directory
`sp/x.py`, whose dirname `sp` is a search-path root. -/
theorem c9_dirname_on_path_false_witness :
    isdir envRel.fs ["sp", "x.py"] = false
    ∧ dirname ["sp", "x.py"] ∈ envRel.sysPath
    ∧ isRelativeI envRel "m" ["sp", "x.py"] = (false, false) :=
  ⟨by decide, by decide,
    c9_dirname_on_path_false envRel "m" ["sp", "x.py"] (by decide) (by decide)⟩

/-! ### Claim C6 -/

/-- Shape of any successful return of the `extrapath` phase: the result is
the package prefix split on dots followed by the FULL filesystem-derived
remainder, while the validation callback received the remainder without its
last component. -/
theorem extrapathLoop_shape (env : Env) (cb : Path → List String → Bool)
    (base : Path) (full : List (Path × String)) :
    ∀ (l : List (Path × String)) (r : List String),
      extrapathLoop env cb base full l = .ok (some r) →
      ∃ k pre,
        k ∈ l.map Prod.fst ∧
        abspath (canonicalizePath k) ≠ [] ∧
        normcase (base.take (abspath (canonicalizePath k)).length)
          = normcase (abspath (canonicalizePath k)) ∧
        cb (abspath (canonicalizePath k))
          (((base.drop (abspath (canonicalizePath k)).length).filter
            (· ≠ "")).dropLast) = true ∧
        dictGet full (canonicalizePath k) = some pre ∧
        r = splitDot pre ++
          (base.drop (abspath (canonicalizePath k)).length).filter (· ≠ "") := by
  intro l
  induction l with
  | nil => intro r h; simp [extrapathLoop] at h
  | cons e rest ih =>
    intro r h
    obtain ⟨k, v⟩ := e
    simp only [extrapathLoop] at h
    split at h
    · split at h
      · cases hd : dictGet full (canonicalizePath k) with
        | some pre =>
          rw [hd] at h
          have hr := Option.some.inj (Except.ok.inj h)
          rename_i hcond hcb
          exact ⟨k, pre, List.mem_cons_self _ _, hcond.1, hcond.2,
            hcb, hd, hr.symm⟩
        | none => rw [hd] at h; cases h
      · obtain ⟨k', pre, hm, h1, h2, h3, h4, h5⟩ := ih r h
        exact ⟨k', pre, List.mem_cons_of_mem _ hm, h1, h2, h3, h4, h5⟩
    · obtain ⟨k', pre, hm, h1, h2, h3, h4, h5⟩ := ih r h
      exact ⟨k', pre, List.mem_cons_of_mem _ hm, h1, h2, h3, h4, h5⟩

/-- C6 counterexample: with `extrapath = [x -> "p"]` and the file
`x/pkg/mod.py` (package `x/pkg` has an init marker), `modpath_from_file`
returns `["p", "pkg", "mod"]` — the prefix components followed by the FULL
remainder — whereas the claim predicts the remainder without its last
component, `["p", "pkg"]`. -/
theorem c6_full_remainder_counterexample :
    modpathFromFile envExtra ["x", "pkg", "mod.py"] (some [(["x"], "p")]) =
      .ok ["p", "pkg", "mod"]
    ∧ (["p", "pkg", "mod"] : List String) ≠ splitDot "p" ++ ["pkg"] :=
  ⟨by decide, by decide⟩

/-- C6 (amended): in `modpath_from_file` with `extra_path` supplied,
whenever the extrapath phase returns a result, there is a (root, prefix)
pair whose canonicalized root is a prefix of the file's extension-stripped
base and whose remainder-without-last-component validates, and the returned
component list is the prefix split on dots followed by the FULL
filesystem-derived remainder (the last component included). -/
theorem c6_extrapath_full_remainder (env : Env) (filename : Path)
    (xp : List (Path × String)) (r : List String)
    (h : extrapathLoop env (checkModpathHasInit env)
      (pathSplitextBase (canonicalizePath (pathFromFilename filename)))
      xp xp = .ok (some r)) :
    modpathFromFile env filename (some xp) = .ok r
    ∧ ∃ k pre,
        k ∈ xp.map Prod.fst ∧
        abspath (canonicalizePath k) ≠ [] ∧
        dictGet xp (canonicalizePath k) = some pre ∧
        checkModpathHasInit env (abspath (canonicalizePath k))
          ((((pathSplitextBase (canonicalizePath (pathFromFilename filename))).drop
            (abspath (canonicalizePath k)).length).filter (· ≠ "")).dropLast)
          = true ∧
        r = splitDot pre ++
          ((pathSplitextBase (canonicalizePath (pathFromFilename filename))).drop
            (abspath (canonicalizePath k)).length).filter (· ≠ "") := by
  constructor
  · simp only [modpathFromFile, modpathFromFileWithCallback, h]
  · obtain ⟨k, pre, hm, h1, h2, h3, h4, h5⟩ :=
      extrapathLoop_shape env (checkModpathHasInit env) _ xp xp r h
    exact ⟨k, pre, hm, h1, h4, h3, h5⟩

/-- C6 witness: the amended theorem at the concrete extrapath scenario of
the counterexample. -/
theorem c6_extrapath_full_remainder_witness :
    modpathFromFile envExtra ["x", "pkg", "mod.py"] (some [(["x"], "p")]) =
      .ok ["p", "pkg", "mod"]
    ∧ ∃ k pre,
        k ∈ ([(["x"], "p")] : List (Path × String)).map Prod.fst ∧
        abspath (canonicalizePath k) ≠ [] ∧
        dictGet [(["x"], "p")] (canonicalizePath k) = some pre ∧
        checkModpathHasInit envExtra (abspath (canonicalizePath k))
          ((((pathSplitextBase (canonicalizePath (pathFromFilename
            ["x", "pkg", "mod.py"]))).drop
            (abspath (canonicalizePath k)).length).filter (· ≠ "")).dropLast)
          = true ∧
        (["p", "pkg", "mod"] : List String) = splitDot pre ++
          ((pathSplitextBase (canonicalizePath (pathFromFilename
            ["x", "pkg", "mod.py"]))).drop
            (abspath (canonicalizePath k)).length).filter (· ≠ "") :=
  c6_extrapath_full_remainder envExtra ["x", "pkg", "mod.py"]
    [(["x"], "p")] ["p", "pkg", "mod"] (by decide)

/-! ### Package results of the chain always carry an init marker -/

/-- Suffix-appending after a join touches only the new component. -/
theorem pathAddSuffix_join (d : Path) (s e : String) :
    pathAddSuffix (pathJoin d s) e = pathJoin d (s ++ e) := by
  simp [pathAddSuffix, pathJoin, List.dropLast_concat, List.getLastD_concat]

/-- `imp`'s per-entry search yields `PKG_DIRECTORY` only for the joined
directory, and only when it holds an init marker file. -/
theorem impFindInEntry_pkg (fs : FS) (name : String) (entry loc : Path)
    (h : impFindInEntry fs name entry = some (ModType.PKG_DIRECTORY, loc)) :
    loc = pathJoin entry name ∧
      (isfile fs (pathJoin loc "__init__.py") = true ∨
       isfile fs (pathJoin loc "__init__.pyc") = true) := by
  simp only [impFindInEntry] at h
  split at h
  · simp only [Option.some.injEq, Prod.mk.injEq] at h
    obtain ⟨-, hl⟩ := h
    subst hl
    refine ⟨rfl, ?_⟩
    rename_i hcond
    rcases Bool.or_eq_true .. ▸ hcond with h' | h'
    · exact Or.inl h'
    · exact Or.inr h'
  · split at h
    · simp only [Option.some.injEq, Prod.mk.injEq] at h
      cases h.1
    · split at h
      · simp only [Option.some.injEq, Prod.mk.injEq] at h
        cases h.1
      · split at h
        · simp only [Option.some.injEq, Prod.mk.injEq] at h
          cases h.1
        · cases h

/-- `imp`'s path scan yields `PKG_DIRECTORY` only with an init marker. -/
theorem impFindInPath_pkg (fs : FS) (name : String) :
    ∀ (entries : List Path) (loc : Path),
      impFindInPath fs name entries = some (ModType.PKG_DIRECTORY, loc) →
      (isfile fs (pathJoin loc "__init__.py") = true ∨
       isfile fs (pathJoin loc "__init__.pyc") = true) := by
  intro entries
  induction entries with
  | nil => intro loc h; simp [impFindInPath] at h
  | cons entry rest ih =>
    intro loc h
    unfold impFindInPath at h
    cases he : impFindInEntry fs name entry with
    | some r =>
      rw [he] at h
      obtain ⟨t, l⟩ := r
      obtain ⟨h1, h2⟩ := Prod.mk.injEq .. ▸ Option.some.inj h
      subst h1
      subst h2
      exact (impFindInEntry_pkg fs name entry l he).2
    | none => rw [he] at h; exact ih loc h

/-- `imp.find_module` yields `PKG_DIRECTORY` only for a located directory
holding an init marker. -/
theorem impFindModule_pkg (env : Env) (name : String)
    (path : Option (List Path)) (loc : Option Path)
    (h : impFindModule env name path = .ok (ModType.PKG_DIRECTORY, loc)) :
    ∃ d, loc = some d ∧
      (isfile env.fs (pathJoin d "__init__.py") = true ∨
       isfile env.fs (pathJoin d "__init__.pyc") = true) := by
  unfold impFindModule at h
  split at h
  · cases h
  · cases path with
    | none =>
      simp only at h
      split at h
      · cases (Prod.mk.injEq .. ▸ Except.ok.inj h).1
      · split at h
        · cases (Prod.mk.injEq .. ▸ Except.ok.inj h).1
        · cases hp : impFindInPath env.fs name env.sysPath with
          | some r =>
            rw [hp] at h
            obtain ⟨t, l⟩ := r
            obtain ⟨h1, h2⟩ := Prod.mk.injEq .. ▸ Except.ok.inj h
            subst h1 h2
            exact ⟨l, rfl, impFindInPath_pkg env.fs name env.sysPath l hp⟩
          | none => rw [hp] at h; cases h
    | some p =>
      simp only at h
      cases hp : impFindInPath env.fs name p with
      | some r =>
        rw [hp] at h
        obtain ⟨t, l⟩ := r
        obtain ⟨h1, h2⟩ := Prod.mk.injEq .. ▸ Except.ok.inj h
        subst h1 h2
        exact ⟨l, rfl, impFindInPath_pkg env.fs name p l hp⟩
      | none => rw [hp] at h; cases h

/-- The zip strategy never returns a `PKG_DIRECTORY`. -/
theorem zipFinderFindModule_type (pic : Pic) (modname : String)
    (moduleParts : List String) (spec : ModuleSpec)
    (h : zipFinderFindModule pic modname moduleParts = some spec) :
    spec.type = some ModType.PY_ZIPMODULE :=
  (c4_zip_success_shape pic modname moduleParts spec h).1

/-- The PEP 420 strategy returns a namespace type or Python `None`. -/
theorem pep420FindModule_type (env : Env) (modname : String)
    (sp : Option (List Path)) (spec : ModuleSpec)
    (h : pep420FindModule env modname sp = some spec) :
    spec.type = some ModType.PY_NAMESPACE ∨ spec.type = none := by
  unfold pep420FindModule at h
  cases hp : pathFinderFindSpec env modname sp with
  | none => rw [hp] at h; cases h
  | some pf =>
    rw [hp] at h
    have := Option.some.inj h
    subst this
    by_cases ho : pf.origin = some "namespace" <;> simp [ho]

/-- A `PKG_DIRECTORY` spec produced by the finder chain is located at a
directory with an init marker. -/
theorem findSpecWithPath_pkg (env : Env) (pic : Pic) (searchPath : List Path)
    (modname : String) (moduleParts processed : List String)
    (sp : Option (List Path)) (tag : FinderTag) (spec : ModuleSpec) (pic1 : Pic)
    (h : findSpecWithPath env pic searchPath modname moduleParts processed sp =
      (.ok (tag, spec), pic1))
    (ht : spec.type = some ModType.PKG_DIRECTORY) :
    ∃ d, spec.location = some d ∧
      (isfile env.fs (pathJoin d "__init__.py") = true ∨
       isfile env.fs (pathJoin d "__init__.pyc") = true) := by
  simp only [findSpecWithPath] at h
  cases him : impFinderFindModule env modname sp with
  | some s =>
    simp only [him] at h
    obtain ⟨h1, -⟩ := Prod.mk.injEq .. ▸ h
    obtain ⟨-, h1⟩ := Prod.mk.injEq .. ▸ Except.ok.inj h1
    subst h1
    unfold impFinderFindModule at him
    cases hm : impFindModule env modname sp with
    | error e => rw [hm] at him; cases him
    | ok r =>
      rw [hm] at him
      obtain ⟨t, loc⟩ := r
      have hs := Option.some.inj him
      subst hs
      simp only at ht
      have := Option.some.inj ht
      subst this
      obtain ⟨d, hd, hinit⟩ := impFindModule_pkg env modname sp loc hm
      exact ⟨d, by simpa using hd, hinit⟩
  | none =>
    simp only [him] at h
    cases hz : zipFinderFindModule
        (precacheZipimporters env pic (some searchPath)).1 modname moduleParts with
    | some s =>
      simp only [hz] at h
      obtain ⟨h1, -⟩ := Prod.mk.injEq .. ▸ h
      obtain ⟨-, h1⟩ := Prod.mk.injEq .. ▸ Except.ok.inj h1
      subst h1
      rw [zipFinderFindModule_type _ _ _ _ hz] at ht
      cases Option.some.inj ht
    | none =>
      simp only [hz] at h
      cases hpn : pep420FindModule env modname sp with
      | some s =>
        simp only [hpn] at h
        obtain ⟨h1, -⟩ := Prod.mk.injEq .. ▸ h
        obtain ⟨-, h1⟩ := Prod.mk.injEq .. ▸ Except.ok.inj h1
        subst h1
        rcases pep420FindModule_type env modname sp _ hpn with h' | h'
        · rw [h'] at ht; cases Option.some.inj ht
        · rw [h'] at ht; cases ht
      | none => simp only [hpn] at h; cases (Prod.mk.injEq .. ▸ h).1

/-- Through the whole `_find_spec` loop, a `PKG_DIRECTORY` result is
located at a directory with an init marker. -/
theorem findSpecLoop_pkg (env : Env) (searchPath : List Path)
    (origPath : Option (List Path)) (moduleParts : List String) :
    ∀ (work processed : List String) (sp : Option (List Path)) (pic : Pic)
      (spec : ModuleSpec) (pic1 : Pic),
      findSpecLoop env pic searchPath origPath moduleParts work processed sp =
        (.ok spec, pic1) →
      spec.type = some ModType.PKG_DIRECTORY →
      ∃ d, spec.location = some d ∧
        (isfile env.fs (pathJoin d "__init__.py") = true ∨
         isfile env.fs (pathJoin d "__init__.pyc") = true) := by
  intro work
  induction work with
  | nil =>
    intro processed sp pic spec pic1 h ht
    simp only [findSpecLoop] at h
    cases (Prod.mk.injEq .. ▸ h).1
  | cons modname rest ih =>
    intro processed sp pic spec pic1 h ht
    simp only [findSpecLoop] at h
    cases hw : findSpecWithPath env pic searchPath modname moduleParts processed
        (pyOrPaths sp origPath) with
    | mk r pic' =>
      rw [hw] at h
      cases r with
      | error e => cases (Prod.mk.injEq .. ▸ h).1
      | ok ts =>
        obtain ⟨tag, spec0⟩ := ts
        simp only at h
        by_cases hrest : rest = []
        · subst hrest
          rw [if_pos rfl] at h
          obtain ⟨h1, -⟩ := Prod.mk.injEq .. ▸ h
          have h1 := Except.ok.inj h1
          by_cases hp : spec0.type = some ModType.PKG_DIRECTORY
          · rw [if_pos hp] at h1
            obtain ⟨d, hd, hinit⟩ := findSpecWithPath_pkg env pic searchPath
              modname moduleParts processed (pyOrPaths sp origPath) tag spec0
              pic' hw hp
            refine ⟨d, ?_, hinit⟩
            rw [← h1]
            exact hd
          · rw [if_neg hp] at h1
            subst h1
            exact absurd ht hp
        · rw [if_neg hrest] at h
          exact ih _ _ _ _ _ h ht

/-- Through `_find_spec`, a `PKG_DIRECTORY` result is located at a
directory with an init marker. -/
theorem findSpec_pkg (env : Env) (pic : Pic) (modpath : List String)
    (path : Option (List Path)) (spec : ModuleSpec) (pic1 : Pic)
    (h : findSpec env pic modpath path = (.ok spec, pic1))
    (ht : spec.type = some ModType.PKG_DIRECTORY) :
    ∃ d, spec.location = some d ∧
      (isfile env.fs (pathJoin d "__init__.py") = true ∨
       isfile env.fs (pathJoin d "__init__.pyc") = true) := by
  unfold findSpec at h
  exact findSpecLoop_pkg env _ path modpath modpath [] none pic spec pic1 h ht

/-- A directory holding an init marker file has a `_has_init` result. -/
theorem hasInit_of_marker (fs : FS) (d : Path)
    (h : isfile fs (pathJoin d "__init__.py") = true ∨
         isfile fs (pathJoin d "__init__.pyc") = true) :
    ∃ i, hasInit fs d = some i := by
  unfold hasInit PY_SOURCE_EXTS
  simp only [hasInitLoop, pathAddSuffix_join]
  have e1 : ("__init__" ++ "." ++ "py" : String) = "__init__.py" := by decide
  have e2 : ("__init__" ++ "." ++ "pyc" : String) = "__init__.pyc" := by decide
  by_cases h1 : pathExists fs (pathJoin d ("__init__" ++ ("." ++ "py"))) = true
  · rw [if_pos h1]; exact ⟨_, rfl⟩
  · rw [if_neg h1]
    by_cases h2 : pathExists fs (pathJoin d ("__init__" ++ ("." ++ "pyc"))) = true
    · rw [if_pos h2]; exact ⟨_, rfl⟩
    · exfalso
      rcases h with h' | h'
      · refine h1 ?_
        have : ("__init__" ++ ("." ++ "py") : String) = "__init__.py" := by decide
        rw [this]
        unfold pathExists
        rw [h']
        rfl
      · refine h2 ?_
        have : ("__init__" ++ ("." ++ "pyc") : String) = "__init__.pyc" := by decide
        rw [this]
        unfold pathExists
        rw [h']
        rfl

/-! ### Claim C1 -/

/-- Any successful context resolution comes from some `_find_spec` call. -/
theorem resolveWithContext_ok (env : Env) (pic : Pic) (modpath : List String)
    (path : Option (List Path)) (context : Option Path) (spec : ModuleSpec)
    (loc0 : Option Path) (pic1 : Pic)
    (h : resolveWithContext env pic modpath path context =
      (.ok (spec, loc0), pic1)) :
    ∃ (picA : Pic) (pA : Option (List Path)),
      findSpec env picA modpath pA = (.ok spec, pic1) := by
  unfold resolveWithContext at h
  cases context with
  | none =>
    simp only at h
    cases hf : findSpec env pic modpath path with
    | mk r p =>
      rw [hf] at h
      cases r with
      | error e => cases (Prod.mk.injEq .. ▸ h).1
      | ok s =>
        simp only [Prod.mk.injEq, Except.ok.injEq] at h
        obtain ⟨⟨h1, -⟩, h2⟩ := h
        subst h1 h2
        exact ⟨pic, path, hf⟩
  | some c =>
    simp only at h
    cases hf : findSpec env pic modpath (some [c]) with
    | mk r p =>
      rw [hf] at h
      cases r with
      | ok s =>
        simp only [Prod.mk.injEq, Except.ok.injEq] at h
        obtain ⟨⟨h1, -⟩, h2⟩ := h
        subst h1 h2
        exact ⟨pic, some [c], hf⟩
      | error e =>
        simp only at h
        cases hf2 : findSpec env p modpath path with
        | mk r2 p2 =>
          rw [hf2] at h
          cases r2 with
          | error e2 => cases (Prod.mk.injEq .. ▸ h).1
          | ok s =>
            simp only [Prod.mk.injEq, Except.ok.injEq] at h
            obtain ⟨⟨h1, -⟩, h2⟩ := h
            subst h1 h2
            exact ⟨p, path, hf2⟩

/-- `_find_spec` on an empty component list leaves `spec` unbound. -/
theorem findSpec_nil (env : Env) (pic : Pic) (path : Option (List Path)) :
    findSpec env pic [] path = (.error .unboundLocal, pic) := rfl

/-- Post-processing of a `PKG_DIRECTORY` spec rewrites location and type. -/
theorem specPostProcess_pkg (env : Env) (spec : ModuleSpec)
    (loc0 : Option Path) (ht : spec.type = some ModType.PKG_DIRECTORY) :
    specPostProcess env spec loc0 =
      .ok { spec with location := hasInit env.fs (spec.location.getD []),
                      type := some ModType.PY_SOURCE } := by
  unfold specPostProcess
  rw [ht]
  rfl

/-- C1: for every dotted-name resolution whose chain lookup returns a
descriptor of kind `PKG_DIRECTORY`, the post-processing of
`_spec_from_modpath` resolves the location to the directory's package-init
file path and sets the kind to `PY_SOURCE`.  The claim's failure clause
("there must be an init file, else resolution fails") holds vacuously: the
chain produces `PKG_DIRECTORY` only for directories in which
`imp.find_module` saw an `__init__.py`/`__init__.pyc` marker, so
`_has_init` always succeeds here — the theorem exhibits the init path
(note that if the init-less case were reachable, the code would return a
location-less descriptor rather than fail, but it is not reachable through
the chain). -/
theorem c1_pkg_directory_rewritten_to_source (env : Env) (pic : Pic)
    (modpath : List String) (path : Option (List Path)) (context : Option Path)
    (spec : ModuleSpec) (loc0 : Option Path) (pic1 : Pic)
    (h : resolveWithContext env pic modpath path context =
      (.ok (spec, loc0), pic1))
    (ht : spec.type = some ModType.PKG_DIRECTORY) :
    ∃ d init, spec.location = some d ∧ hasInit env.fs d = some init ∧
      specFromModpath env pic modpath path context =
        (.ok { spec with location := some init,
                         type := some ModType.PY_SOURCE }, pic1) := by
  have hne : modpath ≠ [] := by
    intro hmp
    subst hmp
    unfold resolveWithContext at h
    cases context with
    | none => rw [findSpec_nil] at h; cases (Prod.mk.injEq .. ▸ h).1
    | some c =>
      rw [findSpec_nil] at h
      simp only at h
      rw [findSpec_nil] at h
      cases (Prod.mk.injEq .. ▸ h).1
  obtain ⟨picA, pA, hfs⟩ := resolveWithContext_ok env pic modpath path context
    spec loc0 pic1 h
  obtain ⟨d, hd, hinit⟩ := findSpec_pkg env picA modpath pA spec pic1 hfs ht
  obtain ⟨i, hi⟩ := hasInit_of_marker env.fs d hinit
  refine ⟨d, i, hd, hi, ?_⟩
  unfold specFromModpath
  rw [if_neg hne, h]
  have hgd : spec.location.getD [] = d := by rw [hd]; rfl
  dsimp only
  rw [specPostProcess_pkg env spec loc0 ht, hgd, hi]

/-- C1 witness: the theorem at the concrete resolution of `["pkg"]` in the
package environment (the chain returns `PKG_DIRECTORY` at `r/pkg`, and the
result is the SOURCE descriptor at `r/pkg/__init__.py`). -/
theorem c1_pkg_directory_rewritten_to_source_witness :
    ∃ d init,
      ({ name := "pkg", type := some ModType.PKG_DIRECTORY,
         location := some ["r", "pkg"] } : ModuleSpec).location = some d ∧
      hasInit envPkg.fs d = some init ∧
      specFromModpath envPkg [] ["pkg"] none none =
        (.ok { ({ name := "pkg", type := some ModType.PKG_DIRECTORY,
                  location := some ["r", "pkg"] } : ModuleSpec) with
               location := some init, type := some ModType.PY_SOURCE }, []) :=
  c1_pkg_directory_rewritten_to_source envPkg [] ["pkg"] none none
    { name := "pkg", type := some ModType.PKG_DIRECTORY,
      location := some ["r", "pkg"] } none [] (by decide) (by decide)

/-! ### Stability of the zipimporter cache across calls -/

/-- The precache loop is the identity when every scanned entry is already
cached or fails to open. -/
theorem precacheZipLoop_stable (fs : FS) :
    ∀ (l : List Path) (pic : Pic),
      (∀ e ∈ l, picContains pic e = true ∨ mkZipImporter fs e = none) →
      (precacheZipLoop fs pic l).1 = pic := by
  intro l
  induction l with
  | nil => intro pic _; rfl
  | cons p rest ih =>
    intro pic h
    unfold precacheZipLoop
    split
    · exact ih pic (fun e he => h e (List.mem_cons_of_mem _ he))
    · rename_i hnc
      rcases h p (List.mem_cons_self _ _) with hc | hn
      · exact absurd hc (by simpa using hnc)
      · rw [hn]
        exact ih pic (fun e he => h e (List.mem_cons_of_mem _ he))

/-- After one pass, every scanned entry is cached or fails to open. -/
theorem precacheZipLoop_handled (fs : FS) (l : List Path) (pic : Pic) :
    ∀ e ∈ l, picContains (precacheZipLoop fs pic l).1 e = true ∨
      mkZipImporter fs e = none := by
  intro e he
  cases hz : mkZipImporter fs e with
  | none => exact Or.inr rfl
  | some z =>
    exact Or.inl (precacheZipLoop_success_cached fs e z hz l pic he)

/-- Precaching is idempotent on the cache. -/
theorem precacheZipLoop_idem (fs : FS) (l : List Path) (pic : Pic) :
    (precacheZipLoop fs (precacheZipLoop fs pic l).1 l).1 =
      (precacheZipLoop fs pic l).1 :=
  precacheZipLoop_stable fs l _ (precacheZipLoop_handled fs l pic)

/-- `_precache_zipimporters` is idempotent on the cache. -/
theorem precacheZipimporters_idem (env : Env) (pic : Pic)
    (path : Option (List Path)) :
    (precacheZipimporters env
      (precacheZipimporters env pic path).1 path).1 =
      (precacheZipimporters env pic path).1 := by
  unfold precacheZipimporters
  exact precacheZipLoop_idem env.fs _ pic

/-- The cache coming out of `_find_spec_with_path` is exactly the precache
of the cache going in. -/
theorem findSpecWithPath_pic (env : Env) (pic : Pic) (searchPath : List Path)
    (modname : String) (moduleParts processed : List String)
    (sp : Option (List Path)) :
    (findSpecWithPath env pic searchPath modname moduleParts processed sp).2 =
      (precacheZipimporters env pic (some searchPath)).1 := by
  simp only [findSpecWithPath]
  cases impFinderFindModule env modname sp with
  | some s => rfl
  | none =>
    cases zipFinderFindModule (precacheZipimporters env pic (some searchPath)).1
        modname moduleParts with
    | some s => rfl
    | none =>
      cases pep420FindModule env modname sp with
      | some s => rfl
      | none => rfl

/-- Running the finder chain from an already-precached cache changes
nothing. -/
theorem findSpecWithPath_precached (env : Env) (pic : Pic)
    (searchPath : List Path) (modname : String)
    (moduleParts processed : List String) (sp : Option (List Path)) :
    findSpecWithPath env (precacheZipimporters env pic (some searchPath)).1
      searchPath modname moduleParts processed sp =
    findSpecWithPath env pic searchPath modname moduleParts processed sp := by
  unfold findSpecWithPath
  rw [precacheZipimporters_idem env pic (some searchPath)]

/-- The `_find_spec` loop behaves identically when started from the
precached cache. -/
theorem findSpecLoop_precached (env : Env) (searchPath : List Path)
    (origPath : Option (List Path)) (moduleParts : List String)
    (work processed : List String) (sp : Option (List Path)) (pic : Pic)
    (hw : work ≠ []) :
    findSpecLoop env (precacheZipimporters env pic (some searchPath)).1
      searchPath origPath moduleParts work processed sp =
    findSpecLoop env pic searchPath origPath moduleParts work processed sp := by
  cases work with
  | nil => exact absurd rfl hw
  | cons modname rest =>
    simp only [findSpecLoop]
    rw [findSpecWithPath_precached env pic searchPath modname moduleParts
      processed (pyOrPaths sp origPath)]

/-- The cache coming out of a nonempty `_find_spec` loop is exactly the
precache of the cache going in. -/
theorem findSpecLoop_pic (env : Env) (searchPath : List Path)
    (origPath : Option (List Path)) (moduleParts : List String) :
    ∀ (work processed : List String) (sp : Option (List Path)) (pic : Pic),
      work ≠ [] →
      (findSpecLoop env pic searchPath origPath moduleParts work processed
        sp).2 = (precacheZipimporters env pic (some searchPath)).1 := by
  intro work
  induction work with
  | nil => intro processed sp pic hw; exact absurd rfl hw
  | cons modname rest ih =>
    intro processed sp pic _
    simp only [findSpecLoop]
    cases hw : findSpecWithPath env pic searchPath modname moduleParts
        processed (pyOrPaths sp origPath) with
    | mk r pic' =>
      have hpic' : pic' = (precacheZipimporters env pic (some searchPath)).1 := by
        have := findSpecWithPath_pic env pic searchPath modname moduleParts
          processed (pyOrPaths sp origPath)
        rw [hw] at this
        exact this
      cases r with
      | error e => exact hpic'
      | ok ts =>
        obtain ⟨tag, spec0⟩ := ts
        simp only
        by_cases hrest : rest = []
        · subst hrest
          rw [if_pos rfl]
          exact hpic'
        · rw [if_neg hrest]
          rw [ih _ _ pic' hrest, hpic',
            precacheZipimporters_idem env pic (some searchPath)]

/-- Running `_find_spec` a second time from the cache produced by a first
identical run yields the same result. -/
theorem findSpec_second_run (env : Env) (pic : Pic) (modpath : List String)
    (path : Option (List Path)) :
    (findSpec env (findSpec env pic modpath path).2 modpath path).1 =
      (findSpec env pic modpath path).1 := by
  cases modpath with
  | nil => rfl
  | cons m rest =>
    unfold findSpec
    rw [findSpecLoop_pic env _ path (m :: rest) (m :: rest) [] none pic
      (by simp)]
    rw [findSpecLoop_precached env _ path (m :: rest) (m :: rest) [] none pic
      (by simp)]

/-! ### Claim C10 -/

/-- Reading a cell just written (in-range). -/
theorem storeGet_set_self (s : Store) (a : Nat) (v : List String)
    (h : a < s.length) : storeGet (storeSet s a v) a = v := by
  unfold storeGet storeSet
  rw [List.getD_eq_getElem?_getD, List.getElem?_set_eq_of_lt v h]
  rfl

/-- Writing one cell leaves the others unchanged. -/
theorem storeGet_set_other (s : Store) (a b : Nat) (v : List String)
    (h : a ≠ b) : storeGet (storeSet s a v) b = storeGet s b := by
  unfold storeGet storeSet
  rw [List.getD_eq_getElem?_getD, List.getElem?_set_ne h,
    ← List.getD_eq_getElem?_getD]

/-- Allocating a fresh cell at the end leaves existing cells unchanged. -/
theorem storeGet_append_other (s : Store) (v : List String) (a : Nat)
    (h : a ≠ s.length) : storeGet (s ++ [v]) a = storeGet s a := by
  unfold storeGet
  rcases Nat.lt_or_ge a s.length with hlt | hge
  · rw [List.getD_eq_getElem?_getD, List.getElem?_append_left hlt,
      ← List.getD_eq_getElem?_getD]
  · have h1 : s.length ≤ a := hge
    have h2 : (s ++ [v]).length ≤ a := by
      rw [List.length_append, List.length_singleton]
      omega
    rw [List.getD_eq_getElem?_getD, List.getElem?_eq_none h2,
      List.getD_eq_getElem?_getD, List.getElem?_eq_none h1]

/-- Reading the freshly appended cell. -/
theorem storeGet_append_self (s : Store) (v : List String) :
    storeGet (s ++ [v]) s.length = v := by
  unfold storeGet
  rw [List.getD_eq_getElem?_getD, List.getElem?_concat_length]
  rfl

/-- Writes keep the store length. -/
theorem storeSet_length (s : Store) (a : Nat) (v : List String) :
    (storeSet s a v).length = s.length := List.length_set s a v

/-- The store-level `_find_spec` loop computes the same result and cache as
the value-level loop on the working list's contents, mutates no cell other
than the working one, and keeps the store length. -/
theorem findSpecStoreLoop_bridge (env : Env) (searchPath : List Path)
    (origPath : Option (List Path)) (moduleParts : List String) (waddr : Nat) :
    ∀ (w : List String) (fuel : Nat) (store : Store) (pic : Pic)
      (processed : List String) (sp : Option (List Path)),
      storeGet store waddr = w → w.length ≤ fuel → waddr < store.length →
      (findSpecStoreLoop env searchPath origPath moduleParts waddr fuel pic
          store processed sp).1
        = (findSpecLoop env pic searchPath origPath moduleParts w processed
            sp).1
      ∧ (findSpecStoreLoop env searchPath origPath moduleParts waddr fuel pic
          store processed sp).2.1
        = (findSpecLoop env pic searchPath origPath moduleParts w processed
            sp).2
      ∧ (∀ a, a ≠ waddr →
          storeGet (findSpecStoreLoop env searchPath origPath moduleParts waddr
            fuel pic store processed sp).2.2 a = storeGet store a)
      ∧ (findSpecStoreLoop env searchPath origPath moduleParts waddr fuel pic
          store processed sp).2.2.length = store.length := by
  intro w
  induction w with
  | nil =>
    intro fuel store pic processed sp hget hlen hlt
    cases fuel with
    | zero => exact ⟨rfl, rfl, fun a _ => rfl, rfl⟩
    | succ n =>
      have h1 : findSpecStoreLoop env searchPath origPath moduleParts waddr
          (n + 1) pic store processed sp = (.error .unboundLocal, pic, store) := by
        simp only [findSpecStoreLoop, popFront, hget]
      rw [h1]
      exact ⟨rfl, rfl, fun a _ => rfl, rfl⟩
  | cons x xs ih =>
    intro fuel store pic processed sp hget hlen hlt
    cases fuel with
    | zero => exact absurd hlen (by simp)
    | succ n =>
      have hpop : popFront store waddr = (some x, storeSet store waddr xs) := by
        unfold popFront
        rw [hget]
      have hs1 : storeGet (storeSet store waddr xs) waddr =
          xs := storeGet_set_self store waddr xs hlt
      simp only [findSpecStoreLoop, hpop, findSpecLoop]
      cases hw : findSpecWithPath env pic searchPath x moduleParts processed
          (pyOrPaths sp origPath) with
      | mk r pic' =>
        cases r with
        | error e =>
          refine ⟨rfl, rfl, fun a ha => ?_, ?_⟩
          · exact storeGet_set_other store waddr a xs ha.symm
          · exact storeSet_length store waddr xs
        | ok ts =>
          obtain ⟨tag, spec0⟩ := ts
          simp only [hs1]
          by_cases hxs : xs = []
          · subst hxs
            rw [if_pos rfl, if_pos rfl]
            refine ⟨rfl, rfl, fun a ha => ?_, ?_⟩
            · exact storeGet_set_other store waddr a [] ha.symm
            · exact storeSet_length store waddr []
          · rw [if_neg hxs, if_neg hxs]
            have hlt1 : waddr < (storeSet store waddr xs).length := by
              rw [storeSet_length]
              exact hlt
            obtain ⟨ih1, ih2, ih3, ih4⟩ := ih n (storeSet store waddr xs) pic'
              (processed ++ [x])
              (if xs ≠ [] then contributeToPath env tag spec0 (processed ++ [x])
               else sp)
              hs1 (Nat.le_of_succ_le_succ hlen) hlt1
            refine ⟨ih1, ih2, fun a ha => ?_, ?_⟩
            · rw [ih3 a ha]
              exact storeGet_set_other store waddr a xs ha.symm
            · rw [ih4]
              exact storeSet_length store waddr xs

/-- Properties of the reference-cell `_find_spec`: the result and cache
equal the pure resolution of the caller list's value, the caller's cell is
unmodified, and the address stays valid. -/
theorem findSpecStore_props (env : Env) (pic : Pic) (store : Store)
    (addr : Nat) (path : Option (List Path)) (haddr : addr < store.length) :
    (findSpecStore env pic store addr path).1
      = (findSpec env pic (storeGet store addr) path).1
    ∧ (findSpecStore env pic store addr path).2.1
      = (findSpec env pic (storeGet store addr) path).2
    ∧ storeGet (findSpecStore env pic store addr path).2.2 addr
      = storeGet store addr
    ∧ addr < (findSpecStore env pic store addr path).2.2.length := by
  have hne : addr ≠ store.length := Nat.ne_of_lt haddr
  have hget1 : storeGet (store ++ [storeGet store addr]) store.length
      = storeGet store addr := storeGet_append_self store (storeGet store addr)
  have hlt1 : store.length < (store ++ [storeGet store addr]).length := by
    rw [List.length_append, List.length_singleton]
    omega
  obtain ⟨b1, b2, b3, b4⟩ := findSpecStoreLoop_bridge env
    (match path with
     | none => env.sysPath
     | some p => if p = [] then env.sysPath else p)
    path (storeGet store addr) store.length (storeGet store addr)
    (storeGet store addr).length (store ++ [storeGet store addr]) pic [] none
    hget1 le_rfl hlt1
  refine ⟨?_, ?_, ?_, ?_⟩
  · unfold findSpecStore findSpec
    exact b1
  · unfold findSpecStore findSpec
    exact b2
  · unfold findSpecStore
    rw [b3 addr hne]
    exact storeGet_append_other store (storeGet store addr) addr hne
  · unfold findSpecStore
    rw [b4, List.length_append, List.length_singleton]
    omega

/-- C10: `_find_spec` copies its `modpath` argument before consuming it
(`modpath = modpath[:]`), so the caller's component list object is left
unmodified; the returned spec is the pure resolution of the list's value,
and running the resolution a second time on the same (preserved) list, from
the store and importer cache the first run left behind, yields the same
result. -/
theorem c10_find_spec_preserves_modpath (env : Env) (pic : Pic)
    (store : Store) (addr : Nat) (path : Option (List Path))
    (haddr : addr < store.length) :
    storeGet (findSpecStore env pic store addr path).2.2 addr
      = storeGet store addr
    ∧ (findSpecStore env pic store addr path).1
        = (findSpec env pic (storeGet store addr) path).1
    ∧ (findSpecStore env (findSpecStore env pic store addr path).2.1
        (findSpecStore env pic store addr path).2.2 addr path).1
        = (findSpecStore env pic store addr path).1 := by
  obtain ⟨p1, p2, p3, p4⟩ := findSpecStore_props env pic store addr path haddr
  refine ⟨p3, p1, ?_⟩
  obtain ⟨q1, q2, q3, q4⟩ := findSpecStore_props env
    (findSpecStore env pic store addr path).2.1
    (findSpecStore env pic store addr path).2.2 addr path p4
  rw [q1, p3, p2, p1]
  exact findSpec_second_run env pic (storeGet store addr) path

/-- C10 witness: the theorem at the concrete store holding the list
`["pkg", "sub"]` at address 0, resolved against the package environment. -/
theorem c10_find_spec_preserves_modpath_witness :
    storeGet (findSpecStore envPkg [] [["pkg", "sub"]] 0 none).2.2 0
      = storeGet [["pkg", "sub"]] 0
    ∧ (findSpecStore envPkg [] [["pkg", "sub"]] 0 none).1
        = (findSpec envPkg [] (storeGet [["pkg", "sub"]] 0) none).1
    ∧ (findSpecStore envPkg (findSpecStore envPkg [] [["pkg", "sub"]] 0 none).2.1
        (findSpecStore envPkg [] [["pkg", "sub"]] 0 none).2.2 0 none).1
        = (findSpecStore envPkg [] [["pkg", "sub"]] 0 none).1 :=
  c10_find_spec_preserves_modpath envPkg [] [["pkg", "sub"]] 0 none (by decide)

/-! ### Claim C5: helper lemmas -/

end Modutils
